import Mathlib

/-!
Verification of the batchMedia batch media-processing pipeline.

The Go sources are shallowly embedded: the configuration record and the
pure decision logic (threshold skip policy, EXIF byte manipulation,
directory ordering, progress tracking, statistics records) are translated
into executable Lean definitions, and each verified property is stated and
proved about those definitions.  Go `int`/`int64` values are modelled as
`Int`, `float64` scaling ratios as `ℚ`, and raw bytes as `Nat` (all byte
values involved are below 256, and no arithmetic that could wrap is
performed on them).
-/

namespace BatchMedia

/-- Configuration record (fields of the Go `Config` struct, `part_002`
lines 17-37, that the skip decisions read; `ScalingRatio` is the `-size`
flag's float64 value, modelled as a rational). -/
structure Config where
  ScalingRatio : ℚ
  Width : Int
  ThresholdWidth : Int
  ThresholdHeight : Int
  IgnoreSmartLimit : Bool

/-- Image skip decision, translated from `shouldSkipImage`
(`src/image.go` lines 191-212): for upscaling (ratio > 1.0) skip when a
dimension exceeds its configured threshold, for downscaling (ratio < 1.0)
skip when a dimension is below its configured threshold. -/
def shouldSkipImage (cfg : Config) (width height : Int) : Bool :=
  if cfg.ScalingRatio > 1 then
    if cfg.ThresholdWidth > 0 ∧ width > cfg.ThresholdWidth then true
    else if cfg.ThresholdHeight > 0 ∧ height > cfg.ThresholdHeight then true
    else false
  else if cfg.ScalingRatio < 1 then
    if cfg.ThresholdWidth > 0 ∧ width < cfg.ThresholdWidth then true
    else if cfg.ThresholdHeight > 0 ∧ height < cfg.ThresholdHeight then true
    else false
  else false

/-- Video skip decision, translated from `shouldSkipVideo`
(`src/video.go` lines 26-39): unless `IgnoreSmartLimit` is set, skip when
a dimension exceeds its configured threshold — it never looks at the
scaling ratio. -/
def shouldSkipVideo (cfg : Config) (width height : Int) : Bool :=
  if cfg.IgnoreSmartLimit then false
  else if cfg.ThresholdWidth > 0 ∧ width > cfg.ThresholdWidth then true
  else if cfg.ThresholdHeight > 0 ∧ height > cfg.ThresholdHeight then true
  else false

/-- Downscaling configuration: ratio 0.5 with the default thresholds
1920 by 1080 and smart limits active. -/
def cfgDown : Config :=
  { ScalingRatio := 1/2, Width := 0, ThresholdWidth := 1920,
    ThresholdHeight := 1080, IgnoreSmartLimit := false }

/-- C1 counterexample: with downscaling ratio 0.5 and thresholds
1920 by 1080 configured, an 800 by 600 video is below both thresholds, so
the claimed direction-aware rule (and `shouldSkipImage`) signals skip,
but `shouldSkipVideo` returns `false`: the video pipeline's decision is
not the image pipeline's downscale rule. -/
theorem shouldSkipVideo_below_threshold_cex :
    cfgDown.ScalingRatio < 1 ∧
    0 < cfgDown.ThresholdWidth ∧ 0 < cfgDown.ThresholdHeight ∧
    (800 : Int) < cfgDown.ThresholdWidth ∧ (600 : Int) < cfgDown.ThresholdHeight ∧
    shouldSkipImage cfgDown 800 600 = true ∧
    shouldSkipVideo cfgDown 800 600 = false := by
  refine ⟨show (1/2 : ℚ) < 1 by norm_num, by decide, by decide, by decide,
    by decide, ?_, ?_⟩
  · norm_num [shouldSkipImage, cfgDown]
  · simp [shouldSkipVideo, cfgDown]

/-- C1 amended: `shouldSkipVideo` signals skip exactly when a probed
dimension strictly exceeds its configured (positive) threshold and the
ignore-smart-limit flag is off, independent of the scaling ratio's
direction. -/
theorem shouldSkipVideo_spec (cfg : Config) (w h : Int) :
    shouldSkipVideo cfg w h = true ↔
      cfg.IgnoreSmartLimit = false ∧
        ((0 < cfg.ThresholdWidth ∧ cfg.ThresholdWidth < w) ∨
         (0 < cfg.ThresholdHeight ∧ cfg.ThresholdHeight < h)) := by
  unfold shouldSkipVideo
  split_ifs with h1 h2 h3 <;>
    simp_all [Bool.not_eq_true]

/-- C9: whenever the ignore-smart-limit flag is set, `shouldSkipVideo`
returns `false` for every resolution, even with thresholds configured. -/
theorem shouldSkipVideo_ignoreSmartLimit (cfg : Config) (w h : Int)
    (hig : cfg.IgnoreSmartLimit = true) :
    shouldSkipVideo cfg w h = false := by
  unfold shouldSkipVideo
  simp [hig]

/-- Configuration with the ignore-smart-limit flag set and both
thresholds still configured. -/
def cfgIgnore : Config :=
  { ScalingRatio := 1/2, Width := 0, ThresholdWidth := 1920,
    ThresholdHeight := 1080, IgnoreSmartLimit := true }

/-- C9 witness: a 5000 by 5000 video exceeds both configured thresholds,
yet is not skipped because the flag is set. -/
theorem shouldSkipVideo_ignoreSmartLimit_witness :
    shouldSkipVideo cfgIgnore 5000 5000 = false :=
  shouldSkipVideo_ignoreSmartLimit cfgIgnore 5000 5000 rfl

/-- C4: boundary behaviour of the image skip decision on either
dimension, for a positive threshold `T`: downscaling (`r < 1`) does not
skip a dimension equal to `T` but skips `T - 1`; upscaling (`1 < r`)
does not skip `T` but skips `T + 1`. -/
theorem shouldSkipImage_threshold_exact (r : ℚ) (T : Int) (hT : 0 < T) :
    (r < 1 →
      shouldSkipImage ⟨r, 0, T, 0, false⟩ T 0 = false ∧
      shouldSkipImage ⟨r, 0, T, 0, false⟩ (T - 1) 0 = true ∧
      shouldSkipImage ⟨r, 0, 0, T, false⟩ 0 T = false ∧
      shouldSkipImage ⟨r, 0, 0, T, false⟩ 0 (T - 1) = true) ∧
    (1 < r →
      shouldSkipImage ⟨r, 0, T, 0, false⟩ T 0 = false ∧
      shouldSkipImage ⟨r, 0, T, 0, false⟩ (T + 1) 0 = true ∧
      shouldSkipImage ⟨r, 0, 0, T, false⟩ 0 T = false ∧
      shouldSkipImage ⟨r, 0, 0, T, false⟩ 0 (T + 1) = true) := by
  constructor
  · intro hr
    have hr1 : ¬ (1 : ℚ) < r := by linarith
    refine ⟨?_, ?_, ?_, ?_⟩ <;> simp [shouldSkipImage, hr, hr1, hT]
  · intro hr
    have hr1 : ¬ r < (1 : ℚ) := by linarith
    refine ⟨?_, ?_, ?_, ?_⟩ <;> simp [shouldSkipImage, hr, hr1, hT]

/-- C4 witness: at threshold 1920 with ratio 0.5, width 1920 is kept and
width 1919 is skipped; with ratio 2, width 1921 is skipped. -/
theorem shouldSkipImage_threshold_exact_witness :
    shouldSkipImage ⟨1/2, 0, 1920, 0, false⟩ 1920 0 = false ∧
    shouldSkipImage ⟨1/2, 0, 1920, 0, false⟩ (1920 - 1) 0 = true ∧
    shouldSkipImage ⟨2, 0, 1920, 0, false⟩ (1920 + 1) 0 = true := by
  have h1 := (shouldSkipImage_threshold_exact (1/2) 1920 (by norm_num)).1 (by norm_num)
  have h2 := (shouldSkipImage_threshold_exact 2 1920 (by norm_num)).2 (by norm_num)
  exact ⟨h1.1, h1.2.1, h2.2.1⟩

/-- JPEG/EXIF payloads are byte sequences; each entry is a byte value
below 256.  Bytes are modelled as `Nat` since no arithmetic on them can
wrap. -/
abbrev Bytes := List Nat

/-- EXIF reinsertion, translated from `insertEXIFCorrectly`
(`src/image.go` lines 482-507): on a valid JPEG (length at least 4,
starting with the SOI marker bytes 0xFF 0xD8) it splices a freshly framed
APP1 segment — marker, big-endian uint16 length, the "Exif\x00\x00"
identifier, then the payload — directly after the 2-byte SOI marker;
otherwise it returns the input unchanged.  The Go `uint16` length cast is
the explicit reduction modulo 2^16. -/
def insertEXIFCorrectly (jpegData exifData : Bytes) : Bytes :=
  if jpegData.length < 4 ∨ jpegData.getD 0 0 ≠ 0xFF ∨ jpegData.getD 1 0 ≠ 0xD8 then
    jpegData
  else
    let exifIdentifier : Bytes := [0x45, 0x78, 0x69, 0x66, 0x00, 0x00]
    let segmentLength : Nat := (2 + exifIdentifier.length + exifData.length) % 2 ^ 16
    let app1Segment : Bytes :=
      [0xFF, 0xE1] ++ [segmentLength / 2 ^ 8 % 2 ^ 8, segmentLength % 2 ^ 8] ++
        exifIdentifier ++ exifData
    jpegData.take 2 ++ app1Segment ++ jpegData.drop 2

/-- C10: whenever the JPEG buffer is shorter than 4 bytes or does not
begin with the SOI marker bytes 0xFF 0xD8, `insertEXIFCorrectly` returns
it unchanged for every EXIF payload. -/
theorem insertEXIFCorrectly_invalid_unchanged (jpegData exifData : Bytes)
    (hbad : jpegData.length < 4 ∨ jpegData.take 2 ≠ [0xFF, 0xD8]) :
    insertEXIFCorrectly jpegData exifData = jpegData := by
  have hcond : jpegData.length < 4 ∨
      jpegData.getD 0 0 ≠ 0xFF ∨ jpegData.getD 1 0 ≠ 0xD8 := by
    rcases hbad with h | h
    · exact Or.inl h
    · match jpegData, h with
      | [], _ => exact Or.inl (by decide)
      | [a], _ => exact Or.inl (by simp)
      | a :: b :: rest, h =>
        by_cases ha : a = 0xFF
        · refine Or.inr (Or.inr fun hb => h ?_)
          have hb2 : b = 0xD8 := hb
          subst ha
          subst hb2
          rfl
        · exact Or.inr (Or.inl fun hA => ha hA)
  unfold insertEXIFCorrectly
  rw [if_pos hcond]

/-- C10 witness: a 5-byte buffer whose first byte is not 0xFF passes
through unchanged. -/
theorem insertEXIFCorrectly_invalid_unchanged_witness :
    insertEXIFCorrectly [0, 1, 2, 3, 4] [9, 9] = [0, 1, 2, 3, 4] :=
  insertEXIFCorrectly_invalid_unchanged [0, 1, 2, 3, 4] [9, 9] (Or.inr (by decide))

/-- Scan loop of `clearOrientationTag` (`src/image.go` lines 465-477):
starting at index `i` with `fuel` iterations left (the Go loop runs `i`
from 0 while `i < len - 4`), look for the byte pair 0x01 0x12 or
0x12 0x01; on a match with `i + 8 < len`, overwrite bytes `i + 6` and
`i + 7` with 0x00 and 0x01 and stop; on a match without that room, keep
scanning (the Go `break` sits inside the inner bounds check). -/
def clearScan (d : Bytes) (i : Nat) : Nat → Bytes
  | 0 => d
  | fuel + 1 =>
    if (d.getD i 0 = 0x01 ∧ d.getD (i + 1) 0 = 0x12) ∨
       (d.getD i 0 = 0x12 ∧ d.getD (i + 1) 0 = 0x01) then
      if i + 8 < d.length then (d.set (i + 6) 0x00).set (i + 7) 0x01
      else clearScan d (i + 1) fuel
    else clearScan d (i + 1) fuel

/-- Orientation clearing, translated from `clearOrientationTag`
(`src/image.go` lines 452-480): data shorter than 10 bytes is returned
as-is; otherwise the scan loop above runs over indices 0 to
`length - 5`. -/
def clearOrientationTag (exifData : Bytes) : Bytes :=
  if exifData.length < 10 then exifData
  else clearScan exifData 0 (exifData.length - 4)

/-- Modelled from the spec: the check "its output metadata's orientation
tag reads 1" needs an EXIF orientation reader, and the reader used at
runtime (the goexif library and external viewers) is not part of src.
This walks the entries of the first IFD of a big-endian TIFF block:
each entry is 12 bytes — tag (2), type (2), count (4), value (4) — and
for the orientation tag 0x0112 the SHORT value occupies the first two
value bytes, at offsets 8 and 9 of the entry. -/
def findOrientationEntry (tiff : Bytes) (off : Nat) : Nat → Option Nat
  | 0 => none
  | n + 1 =>
    if tiff.getD off 0 = 0x01 ∧ tiff.getD (off + 1) 0 = 0x12 then
      some (tiff.getD (off + 8) 0 * 2 ^ 8 + tiff.getD (off + 9) 0)
    else findOrientationEntry tiff (off + 12) n

/-- Modelled from the spec: read the orientation value out of a full
APP1 segment (marker 0xFF 0xE1, 2 length bytes, "Exif\x00\x00", then the
TIFF block): for a big-endian ("MM") TIFF block, follow the IFD offset
at TIFF bytes 4-7, read the 2-byte entry count, and scan the entries for
tag 0x0112. -/
def readOrientation (app1 : Bytes) : Option Nat :=
  let tiff := app1.drop 10
  if tiff.getD 0 0 = 0x4D ∧ tiff.getD 1 0 = 0x4D then
    let ifdOff := tiff.getD 4 0 * 2 ^ 24 + tiff.getD 5 0 * 2 ^ 16 +
      tiff.getD 6 0 * 2 ^ 8 + tiff.getD 7 0
    let count := tiff.getD ifdOff 0 * 2 ^ 8 + tiff.getD (ifdOff + 1) 0
    findOrientationEntry tiff (ifdOff + 2) count
  else none

/-- Concrete APP1 EXIF segment (as `extractEXIF` returns it: marker,
length, identifier, TIFF block), big-endian, whose single IFD entry is
the orientation tag 0x0112 of type SHORT, count 1, value 6 (rotate 90
degrees clockwise). -/
def exifOrient6 : Bytes :=
  [0xFF, 0xE1, 0x00, 0x22,
   0x45, 0x78, 0x69, 0x66, 0x00, 0x00,
   0x4D, 0x4D, 0x00, 0x2A,
   0x00, 0x00, 0x00, 0x08,
   0x00, 0x01,
   0x01, 0x12, 0x00, 0x03, 0x00, 0x00, 0x00, 0x01, 0x00, 0x06, 0x00, 0x00,
   0x00, 0x00, 0x00, 0x00]

/-- C2: on an EXIF segment whose orientation is 6, `clearOrientationTag`
returns the data unchanged — its write lands on bytes `i + 6` and
`i + 7`, the low bytes of the IFD entry's count field (already 0x00
0x01), instead of the value field at bytes `i + 8` and `i + 9` — so the
metadata reinserted by the pipeline still reads orientation 6, not 1. -/
theorem clearOrientationTag_orientation6_bug :
    readOrientation exifOrient6 = some 6 ∧
    clearOrientationTag exifOrient6 = exifOrient6 ∧
    readOrientation (clearOrientationTag exifOrient6) = some 6 ∧
    readOrientation (clearOrientationTag exifOrient6) ≠ some 1 := by
  refine ⟨by decide, by decide, by decide, by decide⟩

/-- Stream dimensions actually carried by a video file, as the ffprobe
JSON output reports them.  `getVideoResolution` receives the probe
result as `Option ProbeInfo` (`none` models a probe error). -/
structure ProbeInfo where
  width : Int
  height : Int

/-- Translated from `getVideoResolution` (`src/video.go` lines 42-54):
a probe error is propagated, and on success the function ignores the
probe contents entirely and returns the constants 1920 and 1080. -/
def getVideoResolution (probe : Option ProbeInfo) : Except String (Int × Int) :=
  match probe with
  | none => Except.error "failed to probe video file"
  | some _ => Except.ok (1920, 1080)

/-- C3: for a successfully probed 640 by 480 video, `getVideoResolution`
returns 1920 by 1080 — the fixed constants, not the probed dimensions —
and those constants are what `processVideo` feeds to the threshold skip
decision. -/
theorem getVideoResolution_constant_bug :
    getVideoResolution (some ⟨640, 480⟩) = Except.ok (1920, 1080) ∧
    getVideoResolution (some ⟨640, 480⟩) ≠
      Except.ok ((ProbeInfo.mk 640 480).width, (ProbeInfo.mk 640 480).height) := by
  refine ⟨rfl, by simp [getVideoResolution]⟩

/-- Directory paths produced by the walk, as character sequences (Go
strings are byte strings; every path character involved here is
ASCII). -/
abbrev DirPath := List Char

/-- Path separator (`filepath.Separator` on the platforms the repository
builds for). -/
def pathSep : Char := '/'

/-- Depth measure used by the scanner's comparator:
`strings.Count(path, string(filepath.Separator))` (`part_002` lines
116-117). -/
def sepCount (p : DirPath) : Nat := p.count pathSep

/-- Comparator of `scanDirectories` (`part_002` lines 115-119): `a` may
precede `b` when `a` is at least as deep (Go sorts with the strict
less-function `depthI > depthJ`, so the sorted output is exactly the
non-increasing arrangements by separator count). -/
def deeperFirst (a b : DirPath) : Prop := sepCount b ≤ sepCount a

instance : DecidableRel deeperFirst := fun a b => Nat.decLe (sepCount b) (sepCount a)

instance : IsTotal DirPath deeperFirst :=
  ⟨fun a b => Nat.le_total (sepCount b) (sepCount a)⟩

instance : IsTrans DirPath deeperFirst :=
  ⟨fun _ _ _ hab hbc => Nat.le_trans hbc hab⟩

/-- Ordering step of `scanDirectories` (`part_002` lines 83-122): the
walk collects every non-hidden directory below the root, and the
collected list is then sorted so that directories with more path
separators come first.  The walk itself is filesystem input; the sort is
modelled on the collected list. -/
def scanDirectoriesOrder (directories : List DirPath) : List DirPath :=
  List.insertionSort deeperFirst directories

/-- Directory `a` is an ancestor of directory `b` when `b` extends `a`
with a separator and a non-empty suffix. -/
def isAncestor (a b : DirPath) : Prop := ∃ rest, b = a ++ pathSep :: rest

/-- An ancestor has strictly fewer separators than its descendant. -/
theorem sepCount_lt_of_isAncestor {a b : DirPath} (h : isAncestor a b) :
    sepCount a < sepCount b := by
  obtain ⟨rest, rfl⟩ := h
  unfold sepCount
  rw [List.count_append]
  simp [List.count_cons, pathSep]

/-- C5: in the scanner's sorted output, whenever directory `A` is an
ancestor of directory `B`, every occurrence of `B` is placed strictly
before every occurrence of `A` (so `B` appears at or before `A`). -/
theorem scanDirectories_deepest_first (directories : List DirPath) (A B : DirPath)
    (hanc : isAncestor A B)
    (i j : Fin (scanDirectoriesOrder directories).length)
    (hA : (scanDirectoriesOrder directories).get i = A)
    (hB : (scanDirectoriesOrder directories).get j = B) :
    (j : Nat) < (i : Nat) := by
  have hsorted : List.Sorted deeperFirst (scanDirectoriesOrder directories) :=
    List.sorted_insertionSort deeperFirst directories
  have hlt := sepCount_lt_of_isAncestor hanc
  rcases Nat.lt_trichotomy (i : Nat) (j : Nat) with hij | hij | hij
  · exfalso
    have hrel := hsorted.rel_get_of_lt (a := i) (b := j) (Fin.lt_def.mpr hij)
    rw [hA, hB] at hrel
    exact absurd hrel (Nat.not_le_of_lt hlt)
  · exfalso
    have : A = B := by rw [← hA, ← hB, Fin.eq_of_val_eq hij]
    rw [this] at hlt
    exact Nat.lt_irrefl _ hlt
  · exact hij

/-- C5 witness: for the tree `/a` with child `/a/b`, the sorted output
is `[/a/b, /a]`, and the theorem places the descendant at index 0,
before its ancestor at index 1. -/
theorem scanDirectories_deepest_first_witness :
    scanDirectoriesOrder [['/', 'a'], ['/', 'a', '/', 'b']] =
      [['/', 'a', '/', 'b'], ['/', 'a']] ∧ (0 : Nat) < 1 := by
  refine ⟨by decide, ?_⟩
  exact scanDirectories_deepest_first [['/', 'a'], ['/', 'a', '/', 'b']]
    ['/', 'a'] ['/', 'a', '/', 'b'] ⟨['b'], rfl⟩
    ⟨1, by decide⟩ ⟨0, by decide⟩ (by decide) (by decide)

/-- Progress entry (`DirectoryProgress`, `part_002` lines 40-44); the
timestamp carries no decision logic and is omitted. -/
structure DirectoryProgress where
  path : String
  completed : Bool

/-- Translated from `markDirectoryCompleted` (`part_002` lines 125-133):
set the `completed` flag of the first entry with the given path and stop
(no-op when no entry matches). -/
def markDirectoryCompleted : List DirectoryProgress → String → List DirectoryProgress
  | [], _ => []
  | e :: rest, dirPath =>
    if e.path = dirPath then { e with completed := true } :: rest
    else e :: markDirectoryCompleted rest dirPath

/-- Translated from `getUncompletedDirectories` (`part_002` lines
136-144): the paths of the entries not yet completed, in order. -/
def getUncompletedDirectories (dirs : List DirectoryProgress) : List String :=
  (dirs.filter (fun d => !d.completed)).map (fun d => d.path)

/-- Single-threaded scheduling loop of `main` (`part_002` lines
676-710), restricted to its effect on the progress tracker: for each
uncompleted directory, `processImages` runs (its success or failure is
the oracle `procOk`); on error the loop logs and `continue`s — the
directory is not marked completed — and on success the directory is
marked.  The second component records which directories were handed to
`processImages`, in order. -/
def runMainLoop (procOk : String → Bool) :
    List String → List DirectoryProgress → List DirectoryProgress × List String
  | [], tracker => (tracker, [])
  | d :: rest, tracker =>
    let tracker2 := if procOk d then markDirectoryCompleted tracker d else tracker
    let res := runMainLoop procOk rest tracker2
    (res.1, d :: res.2)

/-- Membership in the uncompleted list means some entry with that path
is present and not completed. -/
theorem mem_uncompleted_iff (tracker : List DirectoryProgress) (d : String) :
    d ∈ getUncompletedDirectories tracker ↔
      ∃ x ∈ tracker, x.path = d ∧ x.completed = false := by
  simp only [getUncompletedDirectories, List.mem_map, List.mem_filter,
    Bool.not_eq_true']
  constructor
  · rintro ⟨x, ⟨hx1, hx2⟩, hx3⟩
    exact ⟨x, hx1, hx3, hx2⟩
  · rintro ⟨x, hx1, hx2, hx3⟩
    exact ⟨x, ⟨hx1, hx3⟩, hx2⟩

/-- An entry whose path is not the marked one is carried over unchanged
by `markDirectoryCompleted`. -/
theorem mem_mark_of_ne {tracker : List DirectoryProgress} {x : DirectoryProgress}
    {e : String} (hx : x ∈ tracker) (hne : x.path ≠ e) :
    x ∈ markDirectoryCompleted tracker e := by
  induction tracker with
  | nil => cases hx
  | cons a rest ih =>
    by_cases hpa : a.path = e
    · rw [markDirectoryCompleted, if_pos hpa]
      rcases List.mem_cons.mp hx with rfl | hx2
      · exact absurd hpa hne
      · exact List.mem_cons_of_mem _ hx2
    · rw [markDirectoryCompleted, if_neg hpa]
      rcases List.mem_cons.mp hx with rfl | hx2
      · exact List.mem_cons_self _ _
      · exact List.mem_cons_of_mem _ (ih hx2)

/-- Marking a different path never removes a directory from the
uncompleted list. -/
theorem mem_uncompleted_mark {tracker : List DirectoryProgress} {e d : String}
    (hne : e ≠ d) (hd : d ∈ getUncompletedDirectories tracker) :
    d ∈ getUncompletedDirectories (markDirectoryCompleted tracker e) := by
  rw [mem_uncompleted_iff] at hd ⊢
  obtain ⟨x, hx1, hx2, hx3⟩ := hd
  have hxe : x.path ≠ e := by
    rw [hx2]
    exact fun hc => hne hc.symm
  exact ⟨x, mem_mark_of_ne hx1 hxe, hx2, hx3⟩

/-- C6: when processing directory `d` fails, the loop still hands every
remaining directory to `processImages` (first conjunct), `d` stays in
the uncompleted list afterwards (second conjunct), and — as in the
concurrent branch, where each worker marks only its own directory under
the progress mutex, in whatever order workers finish — any sequence of
marks for successfully processed directories leaves `d` uncompleted
(third conjunct). -/
theorem directory_error_not_completed (procOk : String → Bool)
    (dirs : List String) (tracker : List DirectoryProgress) (d : String)
    (hfail : procOk d = false)
    (hunc : d ∈ getUncompletedDirectories tracker) :
    (runMainLoop procOk dirs tracker).2 = dirs ∧
    d ∈ getUncompletedDirectories (runMainLoop procOk dirs tracker).1 ∧
    ∀ succs : List String, (∀ e ∈ succs, procOk e = true) →
      d ∈ getUncompletedDirectories (succs.foldl markDirectoryCompleted tracker) := by
  refine ⟨?_, ?_, ?_⟩
  · clear hunc
    induction dirs generalizing tracker with
    | nil => rfl
    | cons dd rest ih => simp [runMainLoop, ih]
  · induction dirs generalizing tracker with
    | nil => exact hunc
    | cons dd rest ih =>
      cases hok : procOk dd with
      | true =>
        have hne : dd ≠ d := by
          intro hcontra
          rw [hcontra, hfail] at hok
          exact Bool.false_ne_true hok
        simp only [runMainLoop, hok, if_true]
        exact ih _ (mem_uncompleted_mark hne hunc)
      | false =>
        simp only [runMainLoop, hok, Bool.false_eq_true, if_false]
        exact ih _ hunc
  · intro succs hsucc
    induction succs generalizing tracker with
    | nil => exact hunc
    | cons e rest ih =>
      have hne : e ≠ d := by
        intro hcontra
        have h2 := hsucc e (List.mem_cons_self e rest)
        rw [hcontra, hfail] at h2
        exact Bool.false_ne_true h2
      exact ih (markDirectoryCompleted tracker e)
        (mem_uncompleted_mark hne hunc)
        (fun x hx => hsucc x (List.mem_cons_of_mem e hx))

/-- C6 witness: directory "a" fails, directory "b" succeeds; both are
handed to processing, and "a" is still reported uncompleted afterwards,
also after the concurrent-mode mark of "b". -/
theorem directory_error_not_completed_witness :
    (runMainLoop (fun s => s == "b") ["a", "b"]
        [⟨"a", false⟩, ⟨"b", false⟩]).2 = ["a", "b"] ∧
    "a" ∈ getUncompletedDirectories
      (runMainLoop (fun s => s == "b") ["a", "b"]
        [⟨"a", false⟩, ⟨"b", false⟩]).1 ∧
    "a" ∈ getUncompletedDirectories
      (["b"].foldl markDirectoryCompleted [⟨"a", false⟩, ⟨"b", false⟩]) := by
  have h := directory_error_not_completed (fun s => s == "b") ["a", "b"]
    [⟨"a", false⟩, ⟨"b", false⟩] "a" (by decide)
    (by simp [getUncompletedDirectories])
  exact ⟨h.1, h.2.1, h.2.2 ["b"] (by decide)⟩

/-- File record (`FileInfo`, `part_002` lines 169-177); the Go field
`Type` is named `kind` here because `Type` is reserved in Lean, and the
float64 compression ratio is modelled as a rational. -/
structure FileInfo where
  path : String
  kind : String
  InputSize : Int
  OutputSize : Int
  OriginalDim : String
  NewDim : String
  CompressionRatio : ℚ

/-- Record written by `processImage` (`src/image.go` lines 80-156) for a
decoded image of the given dimensions: the skipped branch stores the
input size in both size fields with ratio 1.0, the processed branch
stores the encoded output size and the ratio `outputSize / inputSize`. -/
def processImageRecord (cfg : Config) (relPath : String) (width height : Int)
    (inputSize outputSize : Int) : FileInfo :=
  if shouldSkipImage cfg width height then
    ⟨relPath, "skipped", inputSize, inputSize, "", "", 1⟩
  else
    ⟨relPath, "processed", inputSize, outputSize, "", "",
      (outputSize : ℚ) / (inputSize : ℚ)⟩

/-- Record written by `processVideo` (`src/video.go` lines 67-242): the
skipped branch stores the probed dimensions as both dimension strings
and ratio 1.0 under the file's base name, the processed branch stores
the transcoded output size and the ratio `outputSize / inputSize` under
the relative path. -/
def processVideoRecord (cfg : Config) (baseName relPath : String)
    (width height : Int) (inputSize outputSize : Int) : FileInfo :=
  if shouldSkipVideo cfg width height then
    ⟨baseName, "skipped", inputSize, inputSize,
      toString width ++ "x" ++ toString height,
      toString width ++ "x" ++ toString height, 1⟩
  else
    ⟨relPath, "video_processed", inputSize, outputSize, "", "",
      (outputSize : ℚ) / (inputSize : ℚ)⟩

/-- Record written by `processImages` for an unsupported file
(`part_002` lines 486-494): byte-for-byte copy, equal sizes, ratio
1.0. -/
def copiedRecord (relPath : String) (size : Int) : FileInfo :=
  ⟨relPath, "copied", size, size, "", "", 1⟩

/-- Compression-ratio invariant a `FileInfo` record must satisfy:
"processed"/"video_processed" records carry the quotient of their
recorded sizes, "copied"/"skipped" records carry ratio exactly 1.0 and
equal sizes. -/
def ratioOk (r : FileInfo) : Prop :=
  ((r.kind = "processed" ∨ r.kind = "video_processed") →
    r.CompressionRatio = (r.OutputSize : ℚ) / (r.InputSize : ℚ)) ∧
  ((r.kind = "copied" ∨ r.kind = "skipped") →
    r.CompressionRatio = 1 ∧ r.OutputSize = r.InputSize)

/-- C7: every record produced by the three record-producing paths of the
pipeline — image processing, video processing, and the unsupported-file
copy — satisfies the compression-ratio invariant. -/
theorem fileRecord_ratio_invariant (cfg : Config) (p q : String)
    (w h inSize outSize : Int) :
    ratioOk (processImageRecord cfg p w h inSize outSize) ∧
    ratioOk (processVideoRecord cfg p q w h inSize outSize) ∧
    ratioOk (copiedRecord p inSize) := by
  refine ⟨?_, ?_, ?_⟩
  · unfold processImageRecord ratioOk
    by_cases hs : shouldSkipImage cfg w h <;> simp [hs]
  · unfold processVideoRecord ratioOk
    by_cases hs : shouldSkipVideo cfg w h <;> simp [hs]
  · unfold copiedRecord ratioOk
    simp

/-- C7 witness: a skipped 800 by 600 image under the downscale
configuration records ratio 1.0 and equal sizes, and a processed
4000 by 3000 image records the quotient of its sizes. -/
theorem fileRecord_ratio_invariant_witness :
    (processImageRecord cfgDown "a.jpg" 800 600 100 50).CompressionRatio = 1 ∧
    (processImageRecord cfgDown "a.jpg" 800 600 100 50).OutputSize = 100 ∧
    (processImageRecord cfgDown "b.jpg" 4000 3000 100 50).CompressionRatio =
      (50 : ℚ) / (100 : ℚ) := by
  have hskip : shouldSkipImage cfgDown 800 600 = true := by
    norm_num [shouldSkipImage, cfgDown]
  have hkeep : shouldSkipImage cfgDown 4000 3000 = false := by
    norm_num [shouldSkipImage, cfgDown]
  have h1 := (fileRecord_ratio_invariant cfgDown "a.jpg" "" 800 600 100 50).1.2
    (Or.inr (by simp [processImageRecord, hskip]))
  have h2 := (fileRecord_ratio_invariant cfgDown "b.jpg" "" 4000 3000 100 50).1.1
    (Or.inl (by simp [processImageRecord, hkeep]))
  refine ⟨h1.1, ?_, ?_⟩
  · rw [h1.2]
    simp [processImageRecord, hskip]
  · have hout : (processImageRecord cfgDown "b.jpg" 4000 3000 100 50).OutputSize = 50 := by
      simp [processImageRecord, hkeep]
    have hin : (processImageRecord cfgDown "b.jpg" 4000 3000 100 50).InputSize = 100 := by
      simp [processImageRecord, hkeep]
    rw [h2, hout, hin]
    norm_num

/-- Shared statistics counters (`ProcessStats`, `part_002` lines
146-156, the counter fields the end-to-end claim is about). -/
structure ProcessStats where
  TotalFiles : Nat
  ProcessedImages : Nat
  CopiedFiles : Nat
  SkippedImages : Nat

/-- Fresh statistics, as built by `ProcessStats{DirectoryStats: ...}`. -/
def emptyStats : ProcessStats :=
  ⟨0, 0, 0, 0⟩

/-- Effect of `processImages` (`part_002` lines 320-504) on the shared
total-file counter: every routed file increments `stats.TotalFiles`, so
a directory with `nFiles` routed files adds `nFiles` to it. -/
def processImagesStats (nFiles : Nat) (s : ProcessStats) : ProcessStats :=
  { s with TotalFiles := s.TotalFiles + nFiles }

/-- Statistics reset executed after each completed directory
(`part_002` line 707 in the sequential branch, line 758 under
`statsMutex` in the concurrent branch): `stats` is replaced by a fresh
`ProcessStats`. -/
def resetStats (_ : ProcessStats) : ProcessStats := emptyStats

/-- Per-directory worker effect on the shared statistics (`part_002`
lines 676-710 and 719-762, successful directory): run `processImages`,
then emit the per-directory report (which reads but does not change the
counters) and reset the shared statistics. -/
def workerBody (nFiles : Nat) (s : ProcessStats) : ProcessStats :=
  resetStats (processImagesStats nFiles s)

/-- Serialized execution of the directory workers over the per-directory
routed-file counts: the best case the claim's mutex argument could
provide (any interleaving of the unlocked counter increments only loses
more updates). -/
def runWorkersSerialized (dirFileCounts : List Nat) (s : ProcessStats) : ProcessStats :=
  dirFileCounts.foldl (fun st n => workerBody n st) s

/-- C8 counterexample: two directories, one file each — the claim says
the final total-file count is their sum, 2, but processing ends with the
post-directory reset, so the final count is 0. -/
theorem globalStats_sum_cex :
    (runWorkersSerialized [1, 1] emptyStats).TotalFiles = 0 ∧
    (runWorkersSerialized [1, 1] emptyStats).TotalFiles ≠ [1, 1].sum := by
  refine ⟨rfl, by decide⟩

/-- C8 amended: after any run that processes at least one directory
(even fully serialized), the shared statistics end in the reset state —
the final total-file count is 0, not the sum of the directories' file
counts; the per-directory counts exist only in each directory's report,
emitted before its reset. -/
theorem runWorkers_final_reset (dirFileCounts : List Nat) (n : Nat) (s : ProcessStats) :
    runWorkersSerialized (dirFileCounts ++ [n]) s = emptyStats := by
  unfold runWorkersSerialized
  rw [List.foldl_append]
  rfl

end BatchMedia
